import Mathlib

/-!
Verification of the columnar array core of risinglight (`src/array/mod.rs`).

The file embeds, as Lean definitions, the code of `src/array/mod.rs`:
the `Array` trait's provided methods (`get`, `iter`, `is_empty`), the
generic `ArrayExt::slice`, the two tagged unions `ArrayImpl` /
`ArrayBuilderImpl` with their hand-written and registry-generated
dispatch methods (`push`, `push_n`, `push_str`, `get`, `get_to_string`,
`filter`, `slice`), and proves the spec's claims about them.

The concrete array/builder files (`primitive_array.rs`, `var_array.rs`)
and the scalar-type module (`crate::types`) are not part of the given
source; where their behaviour matters it is modelled from the spec and
marked as such in the doc comment of the corresponding definition.
-/

namespace RL

/-- The validity vector / boolean mask shape (`BitVec` / `&[bool]` in the
source); named so that it stays unambiguous inside namespaces whose
constructors shadow `Bool`. -/
abbrev Validity := List Bool

/-- Textual cell representation (`&str` in the source); named so that it
stays unambiguous inside namespaces whose constructors shadow `String`. -/
abbrev Text := String

/-- Models from the spec the external `F64` float wrapper of `crate::types`
(the types module is not under the given source): an opaque scalar payload;
no claim interprets float values, so an integer-carrying wrapper suffices. -/
structure F64 where
  val : Int
  deriving DecidableEq, Inhabited

/-- Models from the spec the external `Decimal` scalar of `rust_decimal`:
opaque payload carried through arrays, never interpreted by the claims. -/
structure Decimal where
  val : Int
  deriving DecidableEq, Inhabited

/-- Models from the spec the external `Date` scalar of `crate::types`. -/
structure Date where
  val : Int
  deriving DecidableEq, Inhabited

/-- Models from the spec the external `Timestamp` scalar of `crate::types`. -/
structure Timestamp where
  val : Int
  deriving DecidableEq, Inhabited

/-- Models from the spec the external `TimestampTz` scalar of `crate::types`. -/
structure TimestampTz where
  val : Int
  deriving DecidableEq, Inhabited

/-- Models from the spec the external `Interval` scalar of `crate::types`. -/
structure Interval where
  val : Int
  deriving DecidableEq, Inhabited

/-- Models from the spec the external `Blob` scalar of `crate::types`:
a byte sequence payload. -/
structure Blob where
  bytes : List Nat
  deriving DecidableEq, Inhabited

/-- Models from the spec the external `Vector` scalar of `crate::types`:
an opaque fixed-shape numeric blob (spec section 1: not a math object). -/
structure Vector where
  elems : List Int
  deriving DecidableEq, Inhabited

/-- Modelled from the spec: the concrete typed array of `primitive_array.rs`
and `var_array.rs` (neither file is under the given source). Spec section 3:
a concrete array "owns a dense value buffer (plus, for variable-length
kinds, an offset table delimiting each entry) and a validity vector of
equal length"; the offset table of variable-length kinds is folded into
the value list, which represents the same sequence of entries. -/
structure PrimitiveArray (τ : Type) where
  data : List τ
  valid : List Bool
  hlen : data.length = valid.length

/-- `Array::len`: number of items of the array (spec section 3: validity
vector length equals array length at all times). -/
def PrimitiveArray.len (a : PrimitiveArray τ) : Nat :=
  a.data.length

/-- `Array::is_null(idx)`: true when the validity bit at `idx` is unset.
Spec section 4.1: `idx` must be `< len`, bounds are caller-checked; the
model totalises the out-of-range case (which would be fatal in the source)
by reading an unset bit. -/
def PrimitiveArray.is_null (a : PrimitiveArray τ) (idx : Nat) : Bool :=
  !(a.valid.getD idx false)

/-- `Array::get_raw(idx)`: the raw buffer value at `idx` irrespective of
null status (out of range totalised with a default element). -/
def PrimitiveArray.get_raw [Inhabited τ] (a : PrimitiveArray τ) (idx : Nat) : τ :=
  a.data.getD idx default

/-- `Array::get(idx)`, the provided trait method of `src/array/mod.rs`
lines 116-122: none when `is_null(idx)`, otherwise some of `get_raw(idx)`. -/
def PrimitiveArray.get [Inhabited τ] (a : PrimitiveArray τ) (idx : Nat) : Option τ :=
  if a.is_null idx then none else some (a.get_raw idx)

/-- `Array::is_empty`, the provided trait method: `len() == 0`. -/
def PrimitiveArray.is_empty (a : PrimitiveArray τ) : Bool :=
  a.len == 0

/-- Keeps the elements of a list at the positions where the boolean mask
holds; helper for the concrete `filter`. -/
def maskSelect : List α → List Bool → List α
  | x :: xs, b :: bs => if b then x :: maskSelect xs bs else maskSelect xs bs
  | _, _ => []

/-- Modelled from the spec: the concrete `Array::filter` of
`primitive_array.rs` / `var_array.rs` (not under the given source). Spec
section 4.1: "builds a new array containing exactly the positions where
the mask is true, preserving each retained position's null status and
order". -/
def PrimitiveArray.filter [Inhabited τ] (a : PrimitiveArray τ) (p : List Bool) :
    PrimitiveArray τ :=
  let kept := maskSelect (a.data.zip a.valid) p
  ⟨kept.map Prod.fst, kept.map Prod.snd, by simp⟩

/-- Modelled from the spec: the concrete typed builder of
`primitive_array.rs` / `var_array.rs` (not under the given source). Spec
section 3: "owns a growable value buffer/offsets and a growable validity
vector, both always equal in length". -/
structure PrimitiveArrayBuilder (τ : Type) where
  data : List τ
  valid : List Bool
  hlen : data.length = valid.length

/-- `ArrayBuilder::with_capacity(n)`: an empty builder (the capacity hint
only pre-allocates in the source and has no observable content). -/
def PrimitiveArrayBuilder.with_capacity (τ : Type) (_capacity : Nat) :
    PrimitiveArrayBuilder τ :=
  ⟨[], [], rfl⟩

/-- Modelled from the spec: `ArrayBuilder::push(Option<&Item>)` of the
concrete builders, "appends one value or null" (spec section 4.1); a null
entry stores a default raw value and an unset validity bit. -/
def PrimitiveArrayBuilder.push [Inhabited τ] (b : PrimitiveArrayBuilder τ)
    (v : Option τ) : PrimitiveArrayBuilder τ :=
  match v with
  | some x => ⟨b.data ++ [x], b.valid ++ [true], by simp [b.hlen]⟩
  | none => ⟨b.data ++ [default], b.valid ++ [false], by simp [b.hlen]⟩

/-- Modelled from the spec: `ArrayBuilder::push_n(count, value)` appends
the same value or null `count` times (spec section 4.1). -/
def PrimitiveArrayBuilder.push_n [Inhabited τ] (b : PrimitiveArrayBuilder τ) :
    Nat → Option τ → PrimitiveArrayBuilder τ
  | 0, _ => b
  | n + 1, v => (b.push v).push_n n v

/-- Pushes a whole list of optional values in order; the loop body of
`ArrayExt::slice` (`src/array/mod.rs` lines 173-175) expressed as a fold. -/
def PrimitiveArrayBuilder.pushList [Inhabited τ] (b : PrimitiveArrayBuilder τ)
    (os : List (Option τ)) : PrimitiveArrayBuilder τ :=
  os.foldl PrimitiveArrayBuilder.push b

/-- Modelled from the spec: `ArrayBuilder::finish` hands the accumulated
buffers over as an immutable array (spec section 3 lifecycle). -/
def PrimitiveArrayBuilder.finish (b : PrimitiveArrayBuilder τ) : PrimitiveArray τ :=
  ⟨b.data, b.valid, b.hlen⟩

/-- One end of a `RangeBounds`, as consumed by `ArrayExt::slice`. -/
inductive Bound where
  | included (n : Nat)
  | excluded (n : Nat)
  | unbounded

/-- Resolution of the start bound, `src/array/mod.rs` lines 159-163. -/
def resolveStart : Bound → Nat
  | .included n => n
  | .excluded n => n + 1
  | .unbounded => 0

/-- Resolution of the end bound, `src/array/mod.rs` lines 164-168. -/
def resolveEnd (len : Nat) : Bound → Nat
  | .included n => n + 1
  | .excluded n => n
  | .unbounded => len

/-- `ArrayExt::slice` after bound resolution (`src/array/mod.rs` lines
169-177): validate `begin <= end <= len` (the source fails fatally
otherwise, modelled as `none`), then build a new array by pushing
`get(i)` for `i` in `[begin, end)` through a fresh builder. -/
def PrimitiveArray.sliceBE [Inhabited τ] (a : PrimitiveArray τ) (b e : Nat) :
    Option (PrimitiveArray τ) :=
  if b ≤ e ∧ e ≤ a.len then
    some (((PrimitiveArrayBuilder.with_capacity τ (e - b)).pushList
      ((List.range (e - b)).map (fun k => a.get (b + k)))).finish)
  else none

/-- `ArrayExt::slice` (`src/array/mod.rs` lines 157-177): resolve the two
range bounds, then slice between the resolved indices. -/
def PrimitiveArray.slice [Inhabited τ] (a : PrimitiveArray τ) (sb se : Bound) :
    Option (PrimitiveArray τ) :=
  a.sliceBE (resolveStart sb) (resolveEnd a.len se)

/-- Content-and-null-pattern equality of two arrays, the equivalence used
by the spec (section 8): same length, and at every index the same null
status and the same value when non-null. -/
def PrimitiveArray.contentEq [Inhabited τ] (a b : PrimitiveArray τ) : Prop :=
  a.len = b.len ∧
    ∀ i, i < a.len →
      a.is_null i = b.is_null i ∧ (a.is_null i = false → a.get i = b.get i)

/-- The entry sequence of a builder: one optional value per pushed row,
read off the value buffer and the validity vector. -/
def PrimitiveArrayBuilder.entries (b : PrimitiveArrayBuilder τ) : List (Option τ) :=
  List.zipWith (fun d v => if v then some d else none) b.data b.valid

/-- Type aliases of `src/array/mod.rs` lines 180-191: every fixed-width
kind is a `PrimitiveArray` over its scalar; the `Null` kind stores unit. -/
abbrev NullArray := PrimitiveArray Unit

abbrev BoolArray := PrimitiveArray Bool

abbrev I16Array := PrimitiveArray Int

abbrev I32Array := PrimitiveArray Int

abbrev I64Array := PrimitiveArray Int

abbrev F64Array := PrimitiveArray F64

abbrev StringArray := PrimitiveArray String

abbrev BlobArray := PrimitiveArray Blob

abbrev VectorArray := PrimitiveArray Vector

abbrev DecimalArray := PrimitiveArray Decimal

abbrev DateArray := PrimitiveArray Date

abbrev TimestampArray := PrimitiveArray Timestamp

abbrev TimestampTzArray := PrimitiveArray TimestampTz

abbrev IntervalArray := PrimitiveArray Interval

/-- Models from the spec the external `DataValue` of `crate::types`: a
tagged union of single scalar values, one case per kind plus null. -/
inductive DataValue where
  | Null
  | Bool (v : Bool)
  | Int16 (v : Int)
  | Int32 (v : Int)
  | Int64 (v : Int)
  | Float64 (v : F64)
  | String (v : String)
  | Blob (v : Blob)
  | Vector (v : Vector)
  | Decimal (v : Decimal)
  | Date (v : Date)
  | Timestamp (v : Timestamp)
  | TimestampTz (v : TimestampTz)
  | Interval (v : Interval)
  deriving DecidableEq

/-- The tag set of the closed tagged unions: one case per registry entry
of `for_all_variants` plus the dedicated null-only case. -/
inductive ArrayKind where
  | Null
  | Bool
  | Int16
  | Int32
  | Int64
  | Float64
  | String
  | Blob
  | Vector
  | Decimal
  | Date
  | Timestamp
  | TimestampTz
  | Interval
  deriving DecidableEq

/-- `ArrayImpl` (`src/array/mod.rs` lines 195-211): the closed tagged
union over all concrete array kinds; the source wraps each concrete array
in an `Arc`, a shared-ownership handle transparent to value semantics. -/
inductive ArrayImpl where
  | Null (a : NullArray)
  | Bool (a : BoolArray)
  | Int16 (a : I16Array)
  | Int32 (a : I32Array)
  | Int64 (a : I64Array)
  | Float64 (a : F64Array)
  | String (a : StringArray)
  | Blob (a : BlobArray)
  | Vector (a : VectorArray)
  | Decimal (a : DecimalArray)
  | Date (a : DateArray)
  | Timestamp (a : TimestampArray)
  | TimestampTz (a : TimestampTzArray)
  | Interval (a : IntervalArray)

/-- `ArrayBuilderImpl` (`src/array/mod.rs` lines 227-243): the mirrored
tagged union over all concrete builder kinds. -/
inductive ArrayBuilderImpl where
  | Null (a : PrimitiveArrayBuilder Unit)
  | Bool (a : PrimitiveArrayBuilder Bool)
  | Int16 (a : PrimitiveArrayBuilder Int)
  | Int32 (a : PrimitiveArrayBuilder Int)
  | Int64 (a : PrimitiveArrayBuilder Int)
  | Float64 (a : PrimitiveArrayBuilder F64)
  | String (a : PrimitiveArrayBuilder String)
  | Blob (a : PrimitiveArrayBuilder Blob)
  | Vector (a : PrimitiveArrayBuilder Vector)
  | Decimal (a : PrimitiveArrayBuilder Decimal)
  | Date (a : PrimitiveArrayBuilder Date)
  | Timestamp (a : PrimitiveArrayBuilder Timestamp)
  | TimestampTz (a : PrimitiveArrayBuilder TimestampTz)
  | Interval (a : PrimitiveArrayBuilder Interval)

/-- The tagged-union case of an `ArrayImpl`. -/
def ArrayImpl.kind : ArrayImpl → ArrayKind
  | .Null _ => .Null
  | .Bool _ => .Bool
  | .Int16 _ => .Int16
  | .Int32 _ => .Int32
  | .Int64 _ => .Int64
  | .Float64 _ => .Float64
  | .String _ => .String
  | .Blob _ => .Blob
  | .Vector _ => .Vector
  | .Decimal _ => .Decimal
  | .Date _ => .Date
  | .Timestamp _ => .Timestamp
  | .TimestampTz _ => .TimestampTz
  | .Interval _ => .Interval

/-- The tagged-union case of an `ArrayBuilderImpl`. -/
def ArrayBuilderImpl.kind : ArrayBuilderImpl → ArrayKind
  | .Null _ => .Null
  | .Bool _ => .Bool
  | .Int16 _ => .Int16
  | .Int32 _ => .Int32
  | .Int64 _ => .Int64
  | .Float64 _ => .Float64
  | .String _ => .String
  | .Blob _ => .Blob
  | .Vector _ => .Vector
  | .Decimal _ => .Decimal
  | .Date _ => .Date
  | .Timestamp _ => .Timestamp
  | .TimestampTz _ => .TimestampTz
  | .Interval _ => .Interval

/-- The registry case a scalar value belongs to; the null value belongs to
no single case (it is accepted by every builder kind). -/
def DataValue.kindOf : DataValue → Option ArrayKind
  | .Null => none
  | .Bool _ => some .Bool
  | .Int16 _ => some .Int16
  | .Int32 _ => some .Int32
  | .Int64 _ => some .Int64
  | .Float64 _ => some .Float64
  | .String _ => some .String
  | .Blob _ => some .Blob
  | .Vector _ => some .Vector
  | .Decimal _ => some .Decimal
  | .Date _ => some .Date
  | .Timestamp _ => some .Timestamp
  | .TimestampTz _ => some .TimestampTz
  | .Interval _ => some .Interval

/-- Wraps an optional scalar into a `DataValue`, mapping absence to the
null case; the shape of each arm of `ArrayImpl::get`. -/
def optVal (f : τ → DataValue) : Option τ → DataValue
  | some x => f x
  | none => DataValue.Null

/-- The validity vector of the builder behind an `ArrayBuilderImpl`. -/
def ArrayBuilderImpl.validList : ArrayBuilderImpl → Validity
  | .Null a => a.valid
  | .Bool a => a.valid
  | .Int16 a => a.valid
  | .Int32 a => a.valid
  | .Int64 a => a.valid
  | .Float64 a => a.valid
  | .String a => a.valid
  | .Blob a => a.valid
  | .Vector a => a.valid
  | .Decimal a => a.valid
  | .Date a => a.valid
  | .Timestamp a => a.valid
  | .TimestampTz a => a.valid
  | .Interval a => a.valid

/-- The accumulated entries of an `ArrayBuilderImpl`, each rendered as the
`DataValue` that `ArrayImpl::get` would produce for it after `finish`; a
null-kind builder renders every row as the null value. -/
def ArrayBuilderImpl.values : ArrayBuilderImpl → List DataValue
  | .Null a => a.entries.map (optVal fun _ => DataValue.Null)
  | .Bool a => a.entries.map (optVal DataValue.Bool)
  | .Int16 a => a.entries.map (optVal DataValue.Int16)
  | .Int32 a => a.entries.map (optVal DataValue.Int32)
  | .Int64 a => a.entries.map (optVal DataValue.Int64)
  | .Float64 a => a.entries.map (optVal DataValue.Float64)
  | .String a => a.entries.map (optVal DataValue.String)
  | .Blob a => a.entries.map (optVal DataValue.Blob)
  | .Vector a => a.entries.map (optVal DataValue.Vector)
  | .Decimal a => a.entries.map (optVal DataValue.Decimal)
  | .Date a => a.entries.map (optVal DataValue.Date)
  | .Timestamp a => a.entries.map (optVal DataValue.Timestamp)
  | .TimestampTz a => a.entries.map (optVal DataValue.TimestampTz)
  | .Interval a => a.entries.map (optVal DataValue.Interval)

/-- `ArrayImpl::len` (`src/array/mod.rs` lines 603-610): dispatches to the
concrete array's `len`. -/
def ArrayImpl.len : ArrayImpl → Nat
  | .Null a => a.len
  | .Bool a => a.len
  | .Int16 a => a.len
  | .Int32 a => a.len
  | .Int64 a => a.len
  | .Float64 a => a.len
  | .String a => a.len
  | .Blob a => a.len
  | .Vector a => a.len
  | .Decimal a => a.len
  | .Date a => a.len
  | .Timestamp a => a.len
  | .TimestampTz a => a.len
  | .Interval a => a.len

/-- `ArrayImpl::is_empty` (`src/array/mod.rs` lines 649-651). -/
def ArrayImpl.is_empty (a : ArrayImpl) :=
  a.len == 0

/-- `ArrayImpl::get` (`src/array/mod.rs` lines 585-595): the `Null` case
returns the null value without looking at the index; every other case
reads the concrete array and wraps the payload or maps a null position to
the null value. -/
def ArrayImpl.get (a : ArrayImpl) (idx : Nat) : DataValue :=
  match a with
  | .Null _ => DataValue.Null
  | .Bool x => optVal DataValue.Bool (x.get idx)
  | .Int16 x => optVal DataValue.Int16 (x.get idx)
  | .Int32 x => optVal DataValue.Int32 (x.get idx)
  | .Int64 x => optVal DataValue.Int64 (x.get idx)
  | .Float64 x => optVal DataValue.Float64 (x.get idx)
  | .String x => optVal DataValue.String (x.get idx)
  | .Blob x => optVal DataValue.Blob (x.get idx)
  | .Vector x => optVal DataValue.Vector (x.get idx)
  | .Decimal x => optVal DataValue.Decimal (x.get idx)
  | .Date x => optVal DataValue.Date (x.get idx)
  | .Timestamp x => optVal DataValue.Timestamp (x.get idx)
  | .TimestampTz x => optVal DataValue.TimestampTz (x.get idx)
  | .Interval x => optVal DataValue.Interval (x.get idx)

/-- Models the external `Display` of `bool` ("true" / "false"). -/
def displayBool (v : Bool) : Text :=
  if v then "true" else "false"

/-- Models the external `Display` of the integer scalars. -/
def displayInt (v : Int) : Text :=
  toString v

/-- Models the external `Display` of `F64`. -/
def F64.display (v : F64) : Text :=
  toString v.val

/-- Models the external `Display` of `Blob`. -/
def Blob.display (v : Blob) : Text :=
  toString v.bytes

/-- Models the external `Display` of `Vector`. -/
def Vector.display (v : Vector) : Text :=
  toString v.elems

/-- Models the external `Display` of `Decimal`. -/
def Decimal.display (v : Decimal) : Text :=
  toString v.val

/-- Models the external `Display` of `Date`. -/
def Date.display (v : Date) : Text :=
  toString v.val

/-- Models the external `Display` of `Timestamp`. -/
def Timestamp.display (v : Timestamp) : Text :=
  toString v.val

/-- Models the external `Display` of `TimestampTz`. -/
def TimestampTz.display (v : TimestampTz) : Text :=
  toString v.val

/-- Models the external `Display` of `Interval`. -/
def Interval.display (v : Interval) : Text :=
  toString v.val

/-- `ArrayImpl::get_to_string` (`src/array/mod.rs` lines 574-582): the
`Null` case yields no displayed value without looking at the index; every
other case displays the optional value; an absent value falls back to the
literal text `NULL`. The per-scalar display functions model the external
`Display` implementations of `crate::types`. -/
def ArrayImpl.get_to_string (a : ArrayImpl) (idx : Nat) : Text :=
  (match a with
   | .Null _ => none
   | .Bool x => (x.get idx).map displayBool
   | .Int16 x => (x.get idx).map displayInt
   | .Int32 x => (x.get idx).map displayInt
   | .Int64 x => (x.get idx).map displayInt
   | .Float64 x => (x.get idx).map F64.display
   | .String x => (x.get idx).map id
   | .Blob x => (x.get idx).map Blob.display
   | .Vector x => (x.get idx).map Vector.display
   | .Decimal x => (x.get idx).map Decimal.display
   | .Date x => (x.get idx).map Date.display
   | .Timestamp x => (x.get idx).map Timestamp.display
   | .TimestampTz x => (x.get idx).map TimestampTz.display
   | .Interval x => (x.get idx).map Interval.display
  ).getD "NULL"

/-- `ArrayImpl::filter` (`src/array/mod.rs` lines 612-620): dispatches to
the concrete array's `filter` and rewraps the result in the same case. -/
def ArrayImpl.filter (a : ArrayImpl) (p : Validity) : ArrayImpl :=
  match a with
  | .Null x => .Null (x.filter p)
  | .Bool x => .Bool (x.filter p)
  | .Int16 x => .Int16 (x.filter p)
  | .Int32 x => .Int32 (x.filter p)
  | .Int64 x => .Int64 (x.filter p)
  | .Float64 x => .Float64 (x.filter p)
  | .String x => .String (x.filter p)
  | .Blob x => .Blob (x.filter p)
  | .Vector x => .Vector (x.filter p)
  | .Decimal x => .Decimal (x.filter p)
  | .Date x => .Date (x.filter p)
  | .Timestamp x => .Timestamp (x.filter p)
  | .TimestampTz x => .TimestampTz (x.filter p)
  | .Interval x => .Interval (x.filter p)

/-- `ArrayImpl::slice` (`src/array/mod.rs` lines 623-630): dispatches to
the generic `ArrayExt::slice` on the concrete array and rewraps the result
in the same case; a fatally invalid range is modelled as `none`. -/
def ArrayImpl.slice (a : ArrayImpl) (sb se : Bound) : Option ArrayImpl :=
  match a with
  | .Null x => (x.slice sb se).map ArrayImpl.Null
  | .Bool x => (x.slice sb se).map ArrayImpl.Bool
  | .Int16 x => (x.slice sb se).map ArrayImpl.Int16
  | .Int32 x => (x.slice sb se).map ArrayImpl.Int32
  | .Int64 x => (x.slice sb se).map ArrayImpl.Int64
  | .Float64 x => (x.slice sb se).map ArrayImpl.Float64
  | .String x => (x.slice sb se).map ArrayImpl.String
  | .Blob x => (x.slice sb se).map ArrayImpl.Blob
  | .Vector x => (x.slice sb se).map ArrayImpl.Vector
  | .Decimal x => (x.slice sb se).map ArrayImpl.Decimal
  | .Date x => (x.slice sb se).map ArrayImpl.Date
  | .Timestamp x => (x.slice sb se).map ArrayImpl.Timestamp
  | .TimestampTz x => (x.slice sb se).map ArrayImpl.TimestampTz
  | .Interval x => (x.slice sb se).map ArrayImpl.Interval

/-- `ArrayBuilderImpl::push` (`src/array/mod.rs` lines 410-419): a null
value appends a null on any builder kind; a value whose case matches the
builder's case appends that value; any other pairing is a fatal type
mismatch, modelled as `none`. -/
def ArrayBuilderImpl.push (b : ArrayBuilderImpl) (v : DataValue) :
    Option ArrayBuilderImpl :=
  match b, v with
  | .Null a, .Null => some (.Null (a.push none))
  | .Bool a, .Bool x => some (.Bool (a.push (some x)))
  | .Bool a, .Null => some (.Bool (a.push none))
  | .Int16 a, .Int16 x => some (.Int16 (a.push (some x)))
  | .Int16 a, .Null => some (.Int16 (a.push none))
  | .Int32 a, .Int32 x => some (.Int32 (a.push (some x)))
  | .Int32 a, .Null => some (.Int32 (a.push none))
  | .Int64 a, .Int64 x => some (.Int64 (a.push (some x)))
  | .Int64 a, .Null => some (.Int64 (a.push none))
  | .Float64 a, .Float64 x => some (.Float64 (a.push (some x)))
  | .Float64 a, .Null => some (.Float64 (a.push none))
  | .String a, .String x => some (.String (a.push (some x)))
  | .String a, .Null => some (.String (a.push none))
  | .Blob a, .Blob x => some (.Blob (a.push (some x)))
  | .Blob a, .Null => some (.Blob (a.push none))
  | .Vector a, .Vector x => some (.Vector (a.push (some x)))
  | .Vector a, .Null => some (.Vector (a.push none))
  | .Decimal a, .Decimal x => some (.Decimal (a.push (some x)))
  | .Decimal a, .Null => some (.Decimal (a.push none))
  | .Date a, .Date x => some (.Date (a.push (some x)))
  | .Date a, .Null => some (.Date (a.push none))
  | .Timestamp a, .Timestamp x => some (.Timestamp (a.push (some x)))
  | .Timestamp a, .Null => some (.Timestamp (a.push none))
  | .TimestampTz a, .TimestampTz x => some (.TimestampTz (a.push (some x)))
  | .TimestampTz a, .Null => some (.TimestampTz (a.push none))
  | .Interval a, .Interval x => some (.Interval (a.push (some x)))
  | .Interval a, .Null => some (.Interval (a.push none))
  | _, _ => none

/-- `ArrayBuilderImpl::push_n` (`src/array/mod.rs` lines 422-431): as
`push` but appending the value or null `n` times; the same pairings are a
fatal type mismatch, modelled as `none`. -/
def ArrayBuilderImpl.push_n (b : ArrayBuilderImpl) (n : Nat) (v : DataValue) :
    Option ArrayBuilderImpl :=
  match b, v with
  | .Null a, .Null => some (.Null (a.push_n n none))
  | .Bool a, .Bool x => some (.Bool (a.push_n n (some x)))
  | .Bool a, .Null => some (.Bool (a.push_n n none))
  | .Int16 a, .Int16 x => some (.Int16 (a.push_n n (some x)))
  | .Int16 a, .Null => some (.Int16 (a.push_n n none))
  | .Int32 a, .Int32 x => some (.Int32 (a.push_n n (some x)))
  | .Int32 a, .Null => some (.Int32 (a.push_n n none))
  | .Int64 a, .Int64 x => some (.Int64 (a.push_n n (some x)))
  | .Int64 a, .Null => some (.Int64 (a.push_n n none))
  | .Float64 a, .Float64 x => some (.Float64 (a.push_n n (some x)))
  | .Float64 a, .Null => some (.Float64 (a.push_n n none))
  | .String a, .String x => some (.String (a.push_n n (some x)))
  | .String a, .Null => some (.String (a.push_n n none))
  | .Blob a, .Blob x => some (.Blob (a.push_n n (some x)))
  | .Blob a, .Null => some (.Blob (a.push_n n none))
  | .Vector a, .Vector x => some (.Vector (a.push_n n (some x)))
  | .Vector a, .Null => some (.Vector (a.push_n n none))
  | .Decimal a, .Decimal x => some (.Decimal (a.push_n n (some x)))
  | .Decimal a, .Null => some (.Decimal (a.push_n n none))
  | .Date a, .Date x => some (.Date (a.push_n n (some x)))
  | .Date a, .Null => some (.Date (a.push_n n none))
  | .Timestamp a, .Timestamp x => some (.Timestamp (a.push_n n (some x)))
  | .Timestamp a, .Null => some (.Timestamp (a.push_n n none))
  | .TimestampTz a, .TimestampTz x => some (.TimestampTz (a.push_n n (some x)))
  | .TimestampTz a, .Null => some (.TimestampTz (a.push_n n none))
  | .Interval a, .Interval x => some (.Interval (a.push_n n (some x)))
  | .Interval a, .Null => some (.Interval (a.push_n n none))
  | _, _ => none

/-- Models from the spec the external `ConvertError` of `crate::types`
as far as `push_str` constructs it: one constructor per parsing kind,
carrying the offending literal text. The source additionally carries the
lower-level cause produced by the external parsing library; that cause is
part of the external parsers and is not modelled. The three integer
widths share the `ParseInt` constructor, as in the source. -/
inductive ConvertError where
  | ParseBool (s : Text)
  | ParseInt (s : Text)
  | ParseFloat (s : Text)
  | ParseBlob (s : Text)
  | ParseVector (s : Text)
  | ParseDecimal (s : Text)
  | ParseDate (s : Text)
  | ParseTimestamp (s : Text)
  | ParseTimestampTz (s : Text)
  | ParseInterval (s : Text)
  deriving DecidableEq

/-- The offending literal text carried by a conversion error. -/
def ConvertError.text : ConvertError → Text
  | .ParseBool s => s
  | .ParseInt s => s
  | .ParseFloat s => s
  | .ParseBlob s => s
  | .ParseVector s => s
  | .ParseDecimal s => s
  | .ParseDate s => s
  | .ParseTimestamp s => s
  | .ParseTimestampTz s => s
  | .ParseInterval s => s

/-- Models from the spec the kind-specific textual parsers that `push_str`
delegates to (`str::parse`, the engine's float wrapper parser, and the
`from_str` parsers of the external scalar types — all outside the given
source): each returns the parsed scalar or fails. -/
structure ParseEnv where
  parseBool : Text → Option Bool
  parseI16 : Text → Option Int
  parseI32 : Text → Option Int
  parseI64 : Text → Option Int
  parseF64 : Text → Option F64
  parseBlob : Text → Option Blob
  parseVector : Text → Option Vector
  parseDecimal : Text → Option Decimal
  parseDate : Text → Option Date
  parseTimestamp : Text → Option Timestamp
  parseTimestampTz : Text → Option TimestampTz
  parseInterval : Text → Option Interval

/-- `ArrayBuilderImpl::push_str` (`src/array/mod.rs` lines 486-552),
parametrised by the external parsers. The returned pair is the `Result`
together with the builder state after the call (the source mutates the
builder through `&mut self` and returns early, leaving it untouched, on a
parse failure). A null-kind builder unconditionally pushes a null; an
empty string pushes a null on every kind; otherwise the kind-specific
parser runs and a failure yields the kind-tagged error carrying the text. -/
def ArrayBuilderImpl.push_str (env : ParseEnv) (b : ArrayBuilderImpl) (s : Text) :
    Except ConvertError Unit × ArrayBuilderImpl :=
  let isnull := s.isEmpty
  match b with
  | .Null a => (Except.ok (), .Null (a.push none))
  | .Bool a =>
      if isnull then (Except.ok (), .Bool (a.push none))
      else
        match env.parseBool s with
        | some v => (Except.ok (), .Bool (a.push (some v)))
        | none => (Except.error (ConvertError.ParseBool s), .Bool a)
  | .Int16 a =>
      if isnull then (Except.ok (), .Int16 (a.push none))
      else
        match env.parseI16 s with
        | some v => (Except.ok (), .Int16 (a.push (some v)))
        | none => (Except.error (ConvertError.ParseInt s), .Int16 a)
  | .Int32 a =>
      if isnull then (Except.ok (), .Int32 (a.push none))
      else
        match env.parseI32 s with
        | some v => (Except.ok (), .Int32 (a.push (some v)))
        | none => (Except.error (ConvertError.ParseInt s), .Int32 a)
  | .Int64 a =>
      if isnull then (Except.ok (), .Int64 (a.push none))
      else
        match env.parseI64 s with
        | some v => (Except.ok (), .Int64 (a.push (some v)))
        | none => (Except.error (ConvertError.ParseInt s), .Int64 a)
  | .Float64 a =>
      if isnull then (Except.ok (), .Float64 (a.push none))
      else
        match env.parseF64 s with
        | some v => (Except.ok (), .Float64 (a.push (some v)))
        | none => (Except.error (ConvertError.ParseFloat s), .Float64 a)
  | .String a =>
      if isnull then (Except.ok (), .String (a.push none))
      else (Except.ok (), .String (a.push (some s)))
  | .Blob a =>
      if isnull then (Except.ok (), .Blob (a.push none))
      else
        match env.parseBlob s with
        | some v => (Except.ok (), .Blob (a.push (some v)))
        | none => (Except.error (ConvertError.ParseBlob s), .Blob a)
  | .Vector a =>
      if isnull then (Except.ok (), .Vector (a.push none))
      else
        match env.parseVector s with
        | some v => (Except.ok (), .Vector (a.push (some v)))
        | none => (Except.error (ConvertError.ParseVector s), .Vector a)
  | .Decimal a =>
      if isnull then (Except.ok (), .Decimal (a.push none))
      else
        match env.parseDecimal s with
        | some v => (Except.ok (), .Decimal (a.push (some v)))
        | none => (Except.error (ConvertError.ParseDecimal s), .Decimal a)
  | .Date a =>
      if isnull then (Except.ok (), .Date (a.push none))
      else
        match env.parseDate s with
        | some v => (Except.ok (), .Date (a.push (some v)))
        | none => (Except.error (ConvertError.ParseDate s), .Date a)
  | .Timestamp a =>
      if isnull then (Except.ok (), .Timestamp (a.push none))
      else
        match env.parseTimestamp s with
        | some v => (Except.ok (), .Timestamp (a.push (some v)))
        | none => (Except.error (ConvertError.ParseTimestamp s), .Timestamp a)
  | .TimestampTz a =>
      if isnull then (Except.ok (), .TimestampTz (a.push none))
      else
        match env.parseTimestampTz s with
        | some v => (Except.ok (), .TimestampTz (a.push (some v)))
        | none => (Except.error (ConvertError.ParseTimestampTz s), .TimestampTz a)
  | .Interval a =>
      if isnull then (Except.ok (), .Interval (a.push none))
      else
        match env.parseInterval s with
        | some v => (Except.ok (), .Interval (a.push (some v)))
        | none => (Except.error (ConvertError.ParseInterval s), .Interval a)

/-- Whether the kind-specific parser of this builder's kind fails on `s`;
the null kind and the string kind have no failing parse. -/
def ArrayBuilderImpl.parseFails (env : ParseEnv) (b : ArrayBuilderImpl) (s : Text) :=
  match b with
  | .Null _ => false
  | .Bool _ => (env.parseBool s).isNone
  | .Int16 _ => (env.parseI16 s).isNone
  | .Int32 _ => (env.parseI32 s).isNone
  | .Int64 _ => (env.parseI64 s).isNone
  | .Float64 _ => (env.parseF64 s).isNone
  | .String _ => false
  | .Blob _ => (env.parseBlob s).isNone
  | .Vector _ => (env.parseVector s).isNone
  | .Decimal _ => (env.parseDecimal s).isNone
  | .Date _ => (env.parseDate s).isNone
  | .Timestamp _ => (env.parseTimestamp s).isNone
  | .TimestampTz _ => (env.parseTimestampTz s).isNone
  | .Interval _ => (env.parseInterval s).isNone

/-- The kind-tagged conversion error a builder of this kind reports for
the offending text `s`; the null kind and the string kind report none. -/
def ArrayBuilderImpl.kindErrorOf (b : ArrayBuilderImpl) (s : Text) :
    Option ConvertError :=
  match b with
  | .Null _ => none
  | .Bool _ => some (ConvertError.ParseBool s)
  | .Int16 _ => some (ConvertError.ParseInt s)
  | .Int32 _ => some (ConvertError.ParseInt s)
  | .Int64 _ => some (ConvertError.ParseInt s)
  | .Float64 _ => some (ConvertError.ParseFloat s)
  | .String _ => none
  | .Blob _ => some (ConvertError.ParseBlob s)
  | .Vector _ => some (ConvertError.ParseVector s)
  | .Decimal _ => some (ConvertError.ParseDecimal s)
  | .Date _ => some (ConvertError.ParseDate s)
  | .Timestamp _ => some (ConvertError.ParseTimestamp s)
  | .TimestampTz _ => some (ConvertError.ParseTimestampTz s)
  | .Interval _ => some (ConvertError.ParseInterval s)

/-- Number of true entries of a boolean mask (`count_true` in the spec's
property list, section 8). -/
def countTrue (p : List Bool) : Nat :=
  (p.filter id).length

/-- The positions of a boolean mask holding `true`, in increasing order. -/
def truePositions : List Bool → List Nat
  | [] => []
  | b :: bs =>
      if b then 0 :: (truePositions bs).map (· + 1)
      else (truePositions bs).map (· + 1)

/-- A parse environment in which every kind-specific parser rejects every
input; used to exercise the failure path on concrete inputs. -/
def ParseEnv.allFail : ParseEnv :=
  ⟨fun _ => none, fun _ => none, fun _ => none, fun _ => none, fun _ => none,
   fun _ => none, fun _ => none, fun _ => none, fun _ => none, fun _ => none,
   fun _ => none, fun _ => none⟩

/-- A concrete three-row integer array (rows `1`, null, `3`), the spec's
section 8 scenario, used to exercise the theorems on concrete inputs. -/
def sampleIntArray : PrimitiveArray Int :=
  ⟨[1, 2, 3], [true, false, true], rfl⟩

/-- A concrete one-row integer builder used to exercise the theorems. -/
def sampleIntBuilder : PrimitiveArrayBuilder Int :=
  ⟨[7], [true], rfl⟩

/- ------------------------------------------------------------------ -/
/- Supporting lemmas                                                   -/
/- ------------------------------------------------------------------ -/

theorem get_isNone_eq_is_null [Inhabited τ] (a : PrimitiveArray τ) (i : Nat) :
    (a.get i).isNone = a.is_null i := by
  unfold PrimitiveArray.get
  cases h : a.is_null i <;> simp [h]

theorem push_data [Inhabited τ] (b : PrimitiveArrayBuilder τ) (v : Option τ) :
    (b.push v).data = b.data ++ [v.getD default] := by
  cases v <;> rfl

theorem push_valid [Inhabited τ] (b : PrimitiveArrayBuilder τ) (v : Option τ) :
    (b.push v).valid = b.valid ++ [v.isSome] := by
  cases v <;> rfl

theorem entries_push [Inhabited τ] (b : PrimitiveArrayBuilder τ) (v : Option τ) :
    (b.push v).entries = b.entries ++ [v] := by
  cases v <;>
    simp [PrimitiveArrayBuilder.entries, PrimitiveArrayBuilder.push,
      List.zipWith_append _ _ _ _ _ b.hlen]

theorem pushList_data [Inhabited τ] (os : List (Option τ)) :
    ∀ b : PrimitiveArrayBuilder τ,
      (b.pushList os).data = b.data ++ os.map (fun o => o.getD default) := by
  induction os with
  | nil => intro b; simp [PrimitiveArrayBuilder.pushList]
  | cons o os ih =>
      intro b
      have step : b.pushList (o :: os) = (b.push o).pushList os := rfl
      rw [step, ih, push_data]
      simp

theorem pushList_valid [Inhabited τ] (os : List (Option τ)) :
    ∀ b : PrimitiveArrayBuilder τ,
      (b.pushList os).valid = b.valid ++ os.map Option.isSome := by
  induction os with
  | nil => intro b; simp [PrimitiveArrayBuilder.pushList]
  | cons o os ih =>
      intro b
      have step : b.pushList (o :: os) = (b.push o).pushList os := rfl
      rw [step, ih, push_valid]
      simp

theorem built_len [Inhabited τ] (os : List (Option τ)) (c : Nat) :
    ((PrimitiveArrayBuilder.with_capacity τ c).pushList os).finish.len =
      os.length := by
  simp [PrimitiveArray.len, PrimitiveArrayBuilder.finish, pushList_data,
    PrimitiveArrayBuilder.with_capacity]

theorem built_get [Inhabited τ] (os : List (Option τ)) (c : Nat) (i : Nat)
    (hi : i < os.length) :
    ((PrimitiveArrayBuilder.with_capacity τ c).pushList os).finish.get i =
      os.getD i none := by
  have hdata : ((PrimitiveArrayBuilder.with_capacity τ c).pushList os).finish.data
      = os.map (fun o => o.getD default) := by
    simp [PrimitiveArrayBuilder.finish, pushList_data,
      PrimitiveArrayBuilder.with_capacity]
  have hvalid : ((PrimitiveArrayBuilder.with_capacity τ c).pushList os).finish.valid
      = os.map Option.isSome := by
    simp [PrimitiveArrayBuilder.finish, pushList_valid,
      PrimitiveArrayBuilder.with_capacity]
  unfold PrimitiveArray.get PrimitiveArray.is_null PrimitiveArray.get_raw
  rw [hdata, hvalid]
  have hmap : i < (os.map Option.isSome).length := by simpa using hi
  have hmap2 : i < (os.map fun o => o.getD default).length := by simpa using hi
  rw [List.getD_eq_getElem _ _ hmap, List.getD_eq_getElem _ _ hmap2,
    List.getD_eq_getElem _ _ hi, List.getElem_map, List.getElem_map]
  cases hv : os[i] <;> simp [hv]

theorem maskSelect_length (os : List α) :
    ∀ p : List Bool, os.length = p.length →
      (maskSelect os p).length = countTrue p := by
  induction os with
  | nil =>
      intro p hp
      cases p with
      | nil => simp [maskSelect, countTrue]
      | cons b bs => simp at hp
  | cons o os ih =>
      intro p hp
      cases p with
      | nil => simp at hp
      | cons b bs =>
          have hp2 : os.length = bs.length := by simpa using hp
          cases b <;> simp [maskSelect, countTrue, List.filter] at ih ⊢ <;>
            simpa [countTrue] using ih bs hp2

theorem truePositions_length (p : List Bool) :
    (truePositions p).length = countTrue p := by
  induction p with
  | nil => simp [truePositions, countTrue]
  | cons b bs ih =>
      cases b <;> simp [truePositions, countTrue, List.filter] at ih ⊢ <;>
        simpa [countTrue] using ih

theorem truePositions_mem (p : List Bool) :
    ∀ j ∈ truePositions p, j < p.length := by
  induction p with
  | nil => intro j hj; simp [truePositions] at hj
  | cons b bs ih =>
      intro j hj
      cases b with
      | false =>
          simp only [truePositions, Bool.false_eq_true, if_false,
            List.mem_map] at hj
          obtain ⟨k, hk, rfl⟩ := hj
          have := ih k hk
          simp only [List.length_cons]
          omega
      | true =>
          simp only [truePositions, if_true, List.mem_cons,
            List.mem_map] at hj
          rcases hj with rfl | ⟨k, hk, rfl⟩
          · simp
          · have := ih k hk
            simp only [List.length_cons]
            omega

theorem maskSelect_eq_map (d : α) (os : List α) :
    ∀ p : List Bool, os.length = p.length →
      maskSelect os p = (truePositions p).map (fun j => os.getD j d) := by
  induction os with
  | nil =>
      intro p hp
      cases p with
      | nil => simp [maskSelect, truePositions]
      | cons b bs => simp at hp
  | cons o os ih =>
      intro p hp
      cases p with
      | nil => simp at hp
      | cons b bs =>
          have hp2 : os.length = bs.length := by simpa using hp
          cases b with
          | false =>
              simp only [maskSelect, truePositions, Bool.false_eq_true,
                if_false, ih bs hp2, List.map_map]
              exact List.map_congr_left fun j _ => rfl
          | true =>
              simp only [maskSelect, truePositions, if_true, ih bs hp2,
                List.map_map, List.map_cons, List.getD_cons_zero]
              refine congrArg (List.cons o) ?_
              exact List.map_congr_left fun j _ => rfl

theorem truePositions_getD_lt (p : List Bool) (i : Nat)
    (hi : i < countTrue p) : (truePositions p).getD i 0 < p.length := by
  have h2 : i < (truePositions p).length := by
    simpa [truePositions_length] using hi
  rw [List.getD_eq_getElem _ _ h2]
  exact truePositions_mem p _ (List.getElem_mem h2)

theorem maskSelect_getD (os : List α) (p : List Bool) (d : α)
    (h : os.length = p.length) (i : Nat) (hi : i < countTrue p) :
    (maskSelect os p).getD i d = os.getD ((truePositions p).getD i 0) d := by
  rw [maskSelect_eq_map d os p h]
  have hlen : i < ((truePositions p).map (fun j => os.getD j d)).length := by
    simpa [truePositions_length] using hi
  have hlen2 : i < (truePositions p).length := by
    simpa [truePositions_length] using hi
  rw [List.getD_eq_getElem _ _ hlen, List.getElem_map,
    List.getD_eq_getElem _ _ hlen2]

/- ------------------------------------------------------------------ -/
/- Claims                                                              -/
/- ------------------------------------------------------------------ -/

/-- C1: For every array `a` and every index `i` with `i < a.len()`,
`a.get(i)` returns none if and only if `a.is_null(i)` is true; when
`a.is_null(i)` is false, `a.get(i)` returns some of the same value as
`a.get_raw(i)`. -/
theorem get_none_iff_is_null [Inhabited τ] (a : PrimitiveArray τ) (i : Nat)
    (_hi : i < a.len) :
    (a.is_null i = true ↔ a.get i = none) ∧
    (a.is_null i = false → a.get i = some (a.get_raw i)) := by
  unfold PrimitiveArray.get
  cases h : a.is_null i <;> simp [h]

theorem get_none_iff_is_null_witness :
    1 < sampleIntArray.len ∧
    ((sampleIntArray.is_null 1 = true ↔ sampleIntArray.get 1 = none) ∧
      (sampleIntArray.is_null 1 = false →
        sampleIntArray.get 1 = some (sampleIntArray.get_raw 1))) :=
  ⟨by decide, get_none_iff_is_null sampleIntArray 1 (by decide)⟩

/-- C2: For every builder kind, calling `push_str` with the empty string
appends a null entry to the builder and returns Ok, regardless of the
builder's kind. -/
theorem push_str_empty_appends_null (env : ParseEnv) (b : ArrayBuilderImpl) :
    (b.push_str env "").fst = Except.ok () ∧
    (b.push_str env "").snd.validList = b.validList ++ [false] ∧
    (b.push_str env "").snd.kind = b.kind := by
  have he : ("" : Text).isEmpty = true := rfl
  cases b <;>
    simp [ArrayBuilderImpl.push_str, ArrayBuilderImpl.validList,
      ArrayBuilderImpl.kind, PrimitiveArrayBuilder.push, he]

/-- C9: For every string `s`, including non-empty and unparseable
strings, calling `push_str` on a null-kind builder appends a null entry
and returns Ok: the null-kind builder never reports a parse error. -/
theorem push_str_null_builder (env : ParseEnv)
    (a : PrimitiveArrayBuilder Unit) (s : Text) :
    (ArrayBuilderImpl.Null a).push_str env s =
      (Except.ok (), ArrayBuilderImpl.Null (a.push none)) ∧
    ((ArrayBuilderImpl.Null a).push_str env s).snd.validList =
      a.valid ++ [false] := by
  refine ⟨rfl, ?_⟩
  simp [ArrayBuilderImpl.push_str, ArrayBuilderImpl.validList,
    PrimitiveArrayBuilder.push]

/-- C10: For an `ArrayImpl` of the `Null` case, `get(idx)` returns the
null value and `get_to_string(idx)` returns the string "NULL" for every
index `idx`, including `idx >= len()`: neither operation inspects the
index on the `Null` case. -/
theorem null_array_get_ignores_index (x : NullArray) (idx : Nat) :
    (ArrayImpl.Null x).get idx = DataValue.Null ∧
    (ArrayImpl.Null x).get_to_string idx = "NULL" :=
  ⟨rfl, rfl⟩

/-- C8: For every `ArrayImpl` value `a`, every mask `m`, and every range,
`a.filter(m)` and `a.slice(range)` return an `ArrayImpl` of the same
tagged-union case as `a`: the kind is invariant under both operations. -/
theorem filter_slice_kind_invariant (a : ArrayImpl) (p : Validity)
    (sb se : Bound) :
    (a.filter p).kind = a.kind ∧
    ∀ r, a.slice sb se = some r → r.kind = a.kind := by
  constructor
  · cases a <;> rfl
  · intro r hr
    cases a <;>
      (simp only [ArrayImpl.slice, Option.map_eq_some'] at hr ;
       obtain ⟨y, hy, rfl⟩ := hr ;
       rfl)

theorem filter_slice_kind_invariant_witness :
    ((ArrayImpl.Int32 sampleIntArray).filter [true, false, true]).kind =
      (ArrayImpl.Int32 sampleIntArray).kind ∧
    (ArrayImpl.Int32 sampleIntArray).slice (Bound.included 0)
        (Bound.excluded 1) =
      some (ArrayImpl.Int32 ⟨[1], [true], rfl⟩) ∧
    (ArrayImpl.Int32 ⟨[1], [true], rfl⟩ : ArrayImpl).kind =
      (ArrayImpl.Int32 sampleIntArray).kind := by
  have h := filter_slice_kind_invariant (ArrayImpl.Int32 sampleIntArray)
    [true, false, true] (Bound.included 0) (Bound.excluded 1)
  have hs : (ArrayImpl.Int32 sampleIntArray).slice (Bound.included 0)
      (Bound.excluded 1) = some (ArrayImpl.Int32 ⟨[1], [true], rfl⟩) := rfl
  exact ⟨h.1, hs, h.2 _ hs⟩

/-- C7: For every array `a` and every range with resolved bounds `begin`
and `end`, `slice` validates `begin <= end <= a.len()` and fails fatally
otherwise (modelled as `none`); under that precondition it returns the
array built by pushing `a.get(i)` for each `i` in `[begin, end)` through
a fresh builder, so no fatal error occurs when the precondition holds. -/
theorem slice_validates_and_builds [Inhabited τ] (a : PrimitiveArray τ)
    (b e : Nat) :
    ((a.sliceBE b e).isSome ↔ b ≤ e ∧ e ≤ a.len) ∧
    (∀ _ : b ≤ e ∧ e ≤ a.len, ∃ r, a.sliceBE b e = some r ∧
      r.len = e - b ∧ ∀ i, i < e - b → r.get i = a.get (b + i)) := by
  constructor
  · unfold PrimitiveArray.sliceBE
    by_cases h : b ≤ e ∧ e ≤ a.len
    · simp [h]
    · simp [h]
  · intro h
    refine ⟨((PrimitiveArrayBuilder.with_capacity τ (e - b)).pushList
      ((List.range (e - b)).map (fun k => a.get (b + k)))).finish, ?_, ?_, ?_⟩
    · unfold PrimitiveArray.sliceBE
      rw [if_pos h]
    · simpa using
        built_len ((List.range (e - b)).map (fun k => a.get (b + k))) (e - b)
    · intro i hi
      rw [built_get _ _ i (by simpa using hi)]
      rw [List.getD_eq_getElem _ _ (by simpa using hi)]
      simp

theorem slice_validates_and_builds_witness :
    (1 ≤ 3 ∧ 3 ≤ sampleIntArray.len) ∧
    ((sampleIntArray.sliceBE 1 3).isSome ↔ 1 ≤ 3 ∧ 3 ≤ sampleIntArray.len) ∧
    (∃ r, sampleIntArray.sliceBE 1 3 = some r ∧ r.len = 3 - 1 ∧
      ∀ i, i < 3 - 1 → r.get i = sampleIntArray.get (1 + i)) := by
  have h := slice_validates_and_builds sampleIntArray 1 3
  exact ⟨⟨by decide, by decide⟩, h.1, h.2 ⟨by decide, by decide⟩⟩

/-- C4: For every array `a`, `a.slice(0..a.len())` yields an array equal
to `a` in content and null pattern: same length, and at every index the
same null status and the same value when non-null. -/
theorem slice_full_contentEq [Inhabited τ] (a : PrimitiveArray τ) :
    ∃ r, a.slice (Bound.included 0) (Bound.excluded a.len) = some r ∧
      r.contentEq a := by
  have hun : a.slice (Bound.included 0) (Bound.excluded a.len) =
      a.sliceBE 0 a.len := rfl
  have hcond : 0 ≤ a.len ∧ a.len ≤ a.len := ⟨Nat.zero_le _, Nat.le_refl _⟩
  have hBE : a.sliceBE 0 a.len =
      some (((PrimitiveArrayBuilder.with_capacity τ (a.len - 0)).pushList
        ((List.range (a.len - 0)).map (fun k => a.get (0 + k)))).finish) := by
    unfold PrimitiveArray.sliceBE
    rw [if_pos hcond]
  refine ⟨_, hun.trans hBE, ?_⟩
  have hrlen : (((PrimitiveArrayBuilder.with_capacity τ (a.len - 0)).pushList
      ((List.range (a.len - 0)).map (fun k => a.get (0 + k)))).finish).len =
      a.len := by
    simpa using
      built_len ((List.range (a.len - 0)).map (fun k => a.get (0 + k)))
        (a.len - 0)
  have hget : ∀ i, i < a.len →
      (((PrimitiveArrayBuilder.with_capacity τ (a.len - 0)).pushList
        ((List.range (a.len - 0)).map (fun k => a.get (0 + k)))).finish).get i =
      a.get i := by
    intro i hilt
    rw [built_get _ _ i (by simpa using hilt)]
    rw [List.getD_eq_getElem _ _ (by simpa using hilt)]
    simp
  refine ⟨hrlen, ?_⟩
  intro i hi
  have hilt : i < a.len := by rw [← hrlen]; exact hi
  constructor
  · rw [← get_isNone_eq_is_null, ← get_isNone_eq_is_null, hget i hilt]
  · intro _
    exact hget i hilt

/-- C5: For every array `a` and every boolean mask `m` with
`m.len() == a.len()`, `a.filter(m)` has length equal to the number of
true entries of `m`, and the i-th row of the result equals, in value and
null status, the row of `a` at the i-th true position of `m`, in order. -/
theorem filter_length_and_rows [Inhabited τ] (a : PrimitiveArray τ)
    (p : List Bool) (h : p.length = a.len) :
    (a.filter p).len = countTrue p ∧
    ∀ i, i < countTrue p →
      (a.filter p).get i = a.get ((truePositions p).getD i 0) := by
  have hvl : a.valid.length = a.len := a.hlen.symm
  have hplen : (a.data.zip a.valid).length = p.length := by
    rw [List.length_zip, ← a.hlen, Nat.min_self, h]
    rfl
  have hfd : (a.filter p).data =
      (maskSelect (a.data.zip a.valid) p).map Prod.fst := rfl
  have hfv : (a.filter p).valid =
      (maskSelect (a.data.zip a.valid) p).map Prod.snd := rfl
  have hkl : (maskSelect (a.data.zip a.valid) p).length = countTrue p :=
    maskSelect_length (a.data.zip a.valid) p hplen
  constructor
  · show (a.filter p).data.length = countTrue p
    rw [hfd, List.length_map, hkl]
  · intro i hi
    have hik : i < (maskSelect (a.data.zip a.valid) p).length := by
      rw [hkl]; exact hi
    have hj : (truePositions p).getD i 0 < p.length :=
      truePositions_getD_lt p i hi
    have hjd : (truePositions p).getD i 0 < a.data.length := by
      have : p.length = a.data.length := h
      omega
    have hjv : (truePositions p).getD i 0 < a.valid.length := by
      rw [hvl, ← h]
      exact hj
    have hjp : (truePositions p).getD i 0 < (a.data.zip a.valid).length := by
      rw [hplen]
      exact hj
    have hkey : (maskSelect (a.data.zip a.valid) p).getD i
        ((default : τ), false) =
        (a.data.getD ((truePositions p).getD i 0) default,
         a.valid.getD ((truePositions p).getD i 0) false) := by
      rw [maskSelect_getD (a.data.zip a.valid) p _ hplen i hi,
        List.getD_eq_getElem _ _ hjp, List.getD_eq_getElem _ _ hjd,
        List.getD_eq_getElem _ _ hjv]
      exact List.getElem_zip
    have hvv : ((maskSelect (a.data.zip a.valid) p).map Prod.snd).getD i false =
        a.valid.getD ((truePositions p).getD i 0) false := by
      rw [List.getD_eq_getElem _ _ (by simpa using hik), List.getElem_map,
        ← List.getD_eq_getElem _ ((default : τ), false) hik, hkey]
    have hdd : ((maskSelect (a.data.zip a.valid) p).map Prod.fst).getD i
        default = a.data.getD ((truePositions p).getD i 0) default := by
      rw [List.getD_eq_getElem _ _ (by simpa using hik), List.getElem_map,
        ← List.getD_eq_getElem _ ((default : τ), false) hik, hkey]
    unfold PrimitiveArray.get PrimitiveArray.is_null PrimitiveArray.get_raw
    rw [hfv, hfd, hvv, hdd]

theorem filter_length_and_rows_witness :
    ([true, false, true] : List Bool).length = sampleIntArray.len ∧
    ((sampleIntArray.filter [true, false, true]).len =
        countTrue [true, false, true] ∧
      ∀ i, i < countTrue [true, false, true] →
        (sampleIntArray.filter [true, false, true]).get i =
          sampleIntArray.get
            ((truePositions [true, false, true]).getD i 0)) :=
  ⟨by decide,
   filter_length_and_rows sampleIntArray [true, false, true] (by decide)⟩

/-- C3: For every builder and every non-empty string that fails the
builder's kind-specific parsing, `push_str` returns an error tagged with
the kind and carrying the offending text, rather than aborting, and the
builder's contents (length and all previously pushed entries) are
unchanged by the failed call. -/
theorem push_str_parse_failure (env : ParseEnv) (b : ArrayBuilderImpl)
    (s : Text) (hs : s ≠ "") (hf : b.parseFails env s = true) :
    ∃ err, b.push_str env s = (Except.error err, b) ∧
      b.kindErrorOf s = some err ∧ err.text = s := by
  have hne : s.isEmpty = false := by
    cases he : s.isEmpty
    · rfl
    · exact absurd ((String.isEmpty_iff s).1 he) hs
  cases b with
  | Null a => simp [ArrayBuilderImpl.parseFails] at hf
  | String a => simp [ArrayBuilderImpl.parseFails] at hf
  | Bool a =>
      simp only [ArrayBuilderImpl.parseFails, Option.isNone_iff_eq_none] at hf
      exact ⟨ConvertError.ParseBool s,
        by simp [ArrayBuilderImpl.push_str, hne, hf], rfl, rfl⟩
  | Int16 a =>
      simp only [ArrayBuilderImpl.parseFails, Option.isNone_iff_eq_none] at hf
      exact ⟨ConvertError.ParseInt s,
        by simp [ArrayBuilderImpl.push_str, hne, hf], rfl, rfl⟩
  | Int32 a =>
      simp only [ArrayBuilderImpl.parseFails, Option.isNone_iff_eq_none] at hf
      exact ⟨ConvertError.ParseInt s,
        by simp [ArrayBuilderImpl.push_str, hne, hf], rfl, rfl⟩
  | Int64 a =>
      simp only [ArrayBuilderImpl.parseFails, Option.isNone_iff_eq_none] at hf
      exact ⟨ConvertError.ParseInt s,
        by simp [ArrayBuilderImpl.push_str, hne, hf], rfl, rfl⟩
  | Float64 a =>
      simp only [ArrayBuilderImpl.parseFails, Option.isNone_iff_eq_none] at hf
      exact ⟨ConvertError.ParseFloat s,
        by simp [ArrayBuilderImpl.push_str, hne, hf], rfl, rfl⟩
  | Blob a =>
      simp only [ArrayBuilderImpl.parseFails, Option.isNone_iff_eq_none] at hf
      exact ⟨ConvertError.ParseBlob s,
        by simp [ArrayBuilderImpl.push_str, hne, hf], rfl, rfl⟩
  | Vector a =>
      simp only [ArrayBuilderImpl.parseFails, Option.isNone_iff_eq_none] at hf
      exact ⟨ConvertError.ParseVector s,
        by simp [ArrayBuilderImpl.push_str, hne, hf], rfl, rfl⟩
  | Decimal a =>
      simp only [ArrayBuilderImpl.parseFails, Option.isNone_iff_eq_none] at hf
      exact ⟨ConvertError.ParseDecimal s,
        by simp [ArrayBuilderImpl.push_str, hne, hf], rfl, rfl⟩
  | Date a =>
      simp only [ArrayBuilderImpl.parseFails, Option.isNone_iff_eq_none] at hf
      exact ⟨ConvertError.ParseDate s,
        by simp [ArrayBuilderImpl.push_str, hne, hf], rfl, rfl⟩
  | Timestamp a =>
      simp only [ArrayBuilderImpl.parseFails, Option.isNone_iff_eq_none] at hf
      exact ⟨ConvertError.ParseTimestamp s,
        by simp [ArrayBuilderImpl.push_str, hne, hf], rfl, rfl⟩
  | TimestampTz a =>
      simp only [ArrayBuilderImpl.parseFails, Option.isNone_iff_eq_none] at hf
      exact ⟨ConvertError.ParseTimestampTz s,
        by simp [ArrayBuilderImpl.push_str, hne, hf], rfl, rfl⟩
  | Interval a =>
      simp only [ArrayBuilderImpl.parseFails, Option.isNone_iff_eq_none] at hf
      exact ⟨ConvertError.ParseInterval s,
        by simp [ArrayBuilderImpl.push_str, hne, hf], rfl, rfl⟩

theorem push_str_parse_failure_witness :
    (("x" : Text) ≠ "" ∧
      (ArrayBuilderImpl.Int32 sampleIntBuilder).parseFails ParseEnv.allFail
        "x" = true) ∧
    ∃ err, (ArrayBuilderImpl.Int32 sampleIntBuilder).push_str
        ParseEnv.allFail "x" =
        (Except.error err, ArrayBuilderImpl.Int32 sampleIntBuilder) ∧
      (ArrayBuilderImpl.Int32 sampleIntBuilder).kindErrorOf "x" = some err ∧
      err.text = "x" :=
  ⟨⟨by decide, by decide⟩,
   push_str_parse_failure ParseEnv.allFail
     (ArrayBuilderImpl.Int32 sampleIntBuilder) "x" (by decide) (by decide)⟩

/-- C6: For every `ArrayBuilderImpl` and every `DataValue`: if the value
is the null value, `push` appends a null entry whatever the builder's
kind; if the value's case matches the builder's case, `push` appends that
value; in every other pairing, `push` (and `push_n`) fails fatally with a
type mismatch, modelled as `none`. -/
theorem push_dispatch (b : ArrayBuilderImpl) (v : DataValue) (n : Nat) :
    (v = DataValue.Null →
      ∃ b2, b.push v = some b2 ∧
        b2.validList = b.validList ++ [false] ∧ b2.kind = b.kind) ∧
    (v.kindOf = some b.kind →
      ∃ b2, b.push v = some b2 ∧
        b2.values = b.values ++ [v] ∧ b2.kind = b.kind) ∧
    (v ≠ DataValue.Null → v.kindOf ≠ some b.kind →
      b.push v = none ∧ b.push_n n v = none) := by
  refine ⟨?_, ?_, ?_⟩
  · rintro rfl
    cases b <;>
      exact ⟨_, rfl,
        by simp [ArrayBuilderImpl.validList, push_valid], rfl⟩
  · intro hk
    cases b <;> cases v <;>
      first
        | exact ⟨_, rfl,
            by simp [ArrayBuilderImpl.values, entries_push, optVal], rfl⟩
        | simp [DataValue.kindOf, ArrayBuilderImpl.kind] at hk
  · intro hv hk
    cases b <;> cases v <;>
      first
        | exact absurd rfl hv
        | exact absurd rfl hk
        | exact ⟨rfl, rfl⟩

theorem push_dispatch_witness :
    (∃ b2, (ArrayBuilderImpl.Int32 sampleIntBuilder).push DataValue.Null =
        some b2 ∧
      b2.validList =
        (ArrayBuilderImpl.Int32 sampleIntBuilder).validList ++ [false] ∧
      b2.kind = (ArrayBuilderImpl.Int32 sampleIntBuilder).kind) ∧
    (∃ b2, (ArrayBuilderImpl.Int32 sampleIntBuilder).push
        (DataValue.Int32 5) = some b2 ∧
      b2.values = (ArrayBuilderImpl.Int32 sampleIntBuilder).values ++
        [DataValue.Int32 5] ∧
      b2.kind = (ArrayBuilderImpl.Int32 sampleIntBuilder).kind) ∧
    ((ArrayBuilderImpl.Int32 sampleIntBuilder).push (DataValue.Bool true) =
        none ∧
      (ArrayBuilderImpl.Int32 sampleIntBuilder).push_n 2
        (DataValue.Bool true) = none) := by
  have h1 := push_dispatch (ArrayBuilderImpl.Int32 sampleIntBuilder)
    DataValue.Null 2
  have h2 := push_dispatch (ArrayBuilderImpl.Int32 sampleIntBuilder)
    (DataValue.Int32 5) 2
  have h3 := push_dispatch (ArrayBuilderImpl.Int32 sampleIntBuilder)
    (DataValue.Bool true) 2
  exact ⟨h1.1 rfl, h2.2.1 (by decide), h3.2.2 (by decide) (by decide)⟩

end RL





